import Mathlib

/-
  Shallow embedding of `src/service-worker.js` (an offline-capable
  service worker for a phone-keypad PWA) and proofs about its
  install / activate / fetch phases.

  Modelling conventions:
  * A stored HTTP response is a `Response` record (status, statusText, body).
  * A cache store (one `Cache` object of the Cache API) is an association
    list from key strings (request URLs or explicit string keys such as
    "/index.html") to responses; `storePut` overwrites any previous entry.
  * The global `caches` object (`CacheStorage`) is an association list from
    cache names to stores.
  * `fetch` is modelled by an environment function `net : Request → Option
    Response`; `none` models a rejected fetch (network failure).
  * URL parsing (`new URL(...)`) is modelled by an environment function
    `parseURL : String → Option URLParts`; `none` models the constructor
    throwing.
  * A possibly failing `cache.put` is modelled by a boolean `putFails`
    environment flag; when the failure is not caught by the handler the
    result records an unhandled promise rejection.
-/

namespace SW

/-- A stored or live HTTP response; `body = none` models a `null` body. -/
structure Response where
  status : Nat
  statusText : String
  body : Option String
deriving DecidableEq, Repr

/-- The components of a parsed URL that the worker reads. -/
structure URLParts where
  origin : String
  pathname : String
deriving DecidableEq, Repr

/-- An intercepted request: method, url, `destination`, `mode`, and the
value of its `accept` header (`none` when absent). -/
structure Request where
  method : String
  url : String
  destination : String
  mode : String
  accept : Option String
deriving DecidableEq, Repr

/-- One cache store: an association list from key strings to responses. -/
abbrev Store := List (String × Response)

/-- The CacheStorage: an association list from cache names to stores. -/
abbrev Caches := List (String × Store)

/-- `cache.match k` on a single store: first entry with the given key. -/
def storeMatch : Store → String → Option Response
  | [], _ => none
  | e :: rest, k => if e.1 = k then some e.2 else storeMatch rest k

/-- Remove every entry with the given key from a store. -/
def storeDelete : Store → String → Store
  | [], _ => []
  | e :: rest, k => if e.1 = k then storeDelete rest k else e :: storeDelete rest k

/-- `cache.put k v`: overwrite any previous entry for `k` with `v`. -/
def storePut (s : Store) (k : String) (v : Response) : Store :=
  storeDelete s k ++ [(k, v)]

/-- `caches.open n` (read part): the store named `n`, or a fresh empty
store when absent (opening creates the cache). -/
def cachesGet : Caches → String → Store
  | [], _ => []
  | c :: rest, n => if c.1 = n then c.2 else cachesGet rest n

/-- Write back the store named `n` (created at the end when absent). -/
def cachesSet : Caches → String → Store → Caches
  | [], n, s => [(n, s)]
  | c :: rest, n, s => if c.1 = n then (n, s) :: rest else c :: cachesSet rest n s

/-- `caches.open n` followed by `cache.put k v`. -/
def cachesPut (cs : Caches) (n k : String) (v : Response) : Caches :=
  cachesSet cs n (storePut (cachesGet cs n) k v)

/-- `caches.match k`: search every store, in order. -/
def cachesMatch : Caches → String → Option Response
  | [], _ => none
  | c :: rest, k =>
    match storeMatch c.2 k with
    | some r => some r
    | none => cachesMatch rest k

theorem storeMatch_append (s t : Store) (k : String) :
    storeMatch (s ++ t) k =
      match storeMatch s k with
      | some r => some r
      | none => storeMatch t k := by
  induction s with
  | nil => simp [storeMatch]
  | cons e rest ih =>
    by_cases h : e.1 = k <;> simp [storeMatch, h, ih]

theorem storeMatch_storeDelete (s : Store) (k k2 : String) :
    storeMatch (storeDelete s k) k2 =
      if k2 = k then none else storeMatch s k2 := by
  induction s with
  | nil => simp [storeMatch, storeDelete]
  | cons e rest ih =>
    by_cases h : e.1 = k
    · subst h
      by_cases h2 : k2 = e.1
      · subst h2
        simp [storeMatch, storeDelete, ih]
      · have h3 : ¬ e.1 = k2 := fun hh => h2 hh.symm
        simp [storeMatch, storeDelete, ih, h2, h3]
    · by_cases h2 : e.1 = k2
      · have h3 : ¬ k2 = k := fun hh => h (h2.trans hh)
        simp [storeMatch, storeDelete, h, h2, h3]
      · simp [storeMatch, storeDelete, h, h2, ih]

theorem storeMatch_storePut (s : Store) (k : String) (v : Response) (k2 : String) :
    storeMatch (storePut s k v) k2 =
      if k2 = k then some v else storeMatch s k2 := by
  have hd := storeMatch_storeDelete s k k2
  by_cases h : k2 = k
  · subst h
    simp [storePut, storeMatch_append, hd, storeMatch]
  · simp only [storePut, storeMatch_append, hd, if_neg h]
    have h2 : ¬ k = k2 := fun hh => h hh.symm
    cases storeMatch s k2 <;> simp [storeMatch, h2]

theorem cachesGet_cachesSet_self (cs : Caches) (n : String) (s : Store) :
    cachesGet (cachesSet cs n s) n = s := by
  induction cs with
  | nil => simp [cachesGet, cachesSet]
  | cons c rest ih =>
    by_cases h : c.1 = n <;> simp [cachesGet, cachesSet, h, ih]

/-- `const CACHE_VERSION = 'v2'`. -/
def CACHE_VERSION : String := "v2"

/-- The cache name derived from a version tag:
`` `phone-keypad-${version}` ``. -/
def cacheNameFor (v : String) : String := "phone-keypad-" ++ v

/-- `` const CACHE_NAME = `phone-keypad-${CACHE_VERSION}` ``. -/
def CACHE_NAME : String := cacheNameFor CACHE_VERSION

/-- `const ASSETS_TO_CACHE = [...]`. -/
def ASSETS_TO_CACHE : List String :=
  ["/", "/index.html", "/styles.css", "/app.js", "/manifest.json",
   "/apple-touch-icon-180.png", "/icon-192.png", "/icon-512.png",
   "/favicon-32x32.png", "/numpad.png"]

/-- Key under which the navigation branch refreshes the root document
(`cache.put('/index.html', copy)`). -/
def rootDocKey : String := "/index.html"

/-- Key of the image fallback (`caches.match('/apple-touch-icon-180.png')`). -/
def fallbackIconKey : String := "/apple-touch-icon-180.png"

/-- Whether the pattern is an initial segment of the character list. -/
def charListBeginsWith : List Char → List Char → Bool
  | _, [] => true
  | [], _ :: _ => false
  | c :: cs, p :: ps => c == p && charListBeginsWith cs ps

/-- Whether the pattern occurs somewhere in the character list. -/
def charListContains : List Char → List Char → Bool
  | [], p => charListBeginsWith [] p
  | c :: rest, p =>
    charListBeginsWith (c :: rest) p || charListContains rest p

/-- Whether the pattern is a final segment of the character list. -/
def charListEndsWith (s p : List Char) : Bool :=
  charListBeginsWith s.reverse p.reverse

/-- JavaScript `s.includes(pat)`. -/
def strContains (s pat : String) : Bool := charListContains s.data pat.data

/-- The alternation of the image-extension regex
`/\.(png|jpg|jpeg|gif|webp|svg|ico)$/i`. -/
def imageExtensions : List String := ["png", "jpg", "jpeg", "gif", "webp", "svg", "ico"]

/-- The regex test: the pathname ends, case-insensitively, in a dot
followed by one of the image extensions. -/
def hasImageExtension (pathname : String) : Bool :=
  imageExtensions.any (fun ext =>
    charListEndsWith (pathname.data.map Char.toLower) ('.' :: ext.data))

/-- `isImageRequest(request)` from the source: destination is `'image'`,
or the parsed URL pathname has an image extension; a URL-parse failure is
caught and yields `false`. -/
def isImageRequest (parseURL : String → Option URLParts) (req : Request) : Bool :=
  if req.destination = "image" then true
  else
    match parseURL req.url with
    | some url => hasImageExtension url.pathname
    | none => false

/-- The navigation test of the fetch handler:
`req.mode === 'navigate' || (req.headers.get('accept') || '').includes('text/html')`. -/
def isNavigationRequest (req : Request) : Bool :=
  req.mode == "navigate" || strContains (req.accept.getD "") "text/html"

/-- The fetch performed by `cache.add` / `cache.addAll` for one manifest
entry: a network answer is accepted only when its status is ok (2xx);
otherwise the add rejects, modelled as `none`. -/
def fetchAsset (netA : String → Option Response) (a : String) : Option Response :=
  match netA a with
  | some r => if 200 ≤ r.status ∧ r.status < 300 then some r else none
  | none => none

/-- Whether `cache.addAll` would succeed: every manifest entry fetches ok. -/
def addAllOk (netA : String → Option Response) (assets : List String) : Bool :=
  assets.all (fun a => (fetchAsset netA a).isSome)

/-- The fetch stage of `cache.addAll`: all entries, or failure of the whole
batch when any single one fails. -/
def addAllFetch (netA : String → Option Response) :
    List String → Option (List (String × Response))
  | [] => some []
  | a :: rest =>
    match fetchAsset netA a with
    | some r => (addAllFetch netA rest).map (fun l => (a, r) :: l)
    | none => none

/-- The write stage of `cache.addAll`: put every fetched pair, in order. -/
def batchPut : List (String × Response) → Store → Store
  | [], s => s
  | p :: rest, s => batchPut rest (storePut s p.1 p.2)

/-- `cache.addAll(assets)`: all-or-nothing population of the store. -/
def addAllStore (netA : String → Option Response) (assets : List String)
    (s : Store) : Option Store :=
  (addAllFetch netA assets).map (fun l => batchPut l s)

/-- The fallback loop of the install handler: `cache.add` each asset
independently, ignoring individual failures. -/
def addEachStore (netA : String → Option Response) : List String → Store → Store
  | [], s => s
  | a :: rest, s =>
    match fetchAsset netA a with
    | some r => addEachStore netA rest (storePut s a r)
    | none => addEachStore netA rest s

/-- The warnings logged by the fallback loop, one per failed asset. -/
def addEachLogs (netA : String → Option Response) : List String → List String
  | [] => []
  | a :: rest =>
    match fetchAsset netA a with
    | some _ => addEachLogs netA rest
    | none => ("SW: failed to cache " ++ a) :: addEachLogs netA rest

/-- The install handler's effect on the store opened for `CACHE_NAME`:
try `cache.addAll`; if it fails, warn and fall back to individual adds.
Returns the resulting store and the log lines emitted. -/
def installStore (netA : String → Option Response) (assets : List String)
    (s : Store) : Store × List String :=
  match addAllStore netA assets s with
  | some st => (st, [])
  | none =>
    (addEachStore netA assets s,
      "SW: cache.addAll failed - falling back to individual caching"
        :: addEachLogs netA assets)

/-- The whole install handler: `caches.open(CACHE_NAME)` (creating the
store when absent) then population. -/
def installCaches (netA : String → Option Response) (assets : List String)
    (cs : Caches) : Caches × List String :=
  let p := installStore netA assets (cachesGet cs CACHE_NAME)
  (cachesSet cs CACHE_NAME p.1, p.2)

/-- The activate handler's effect on the CacheStorage: every cache whose
name differs from `current` is deleted; only the matching ones survive. -/
def activateCaches (cs : Caches) (current : String) : Caches :=
  cs.filter (fun c => c.1 == current)

/-- Observable actions of the activate handler, in completion order. -/
inductive SWEvent where
  | deleteStore (name : String)
  | claimClients
deriving DecidableEq, Repr

/-- Whether an activate-phase event is a cache deletion. -/
def SWEvent.isDelete : SWEvent → Bool
  | deleteStore _ => true
  | claimClients => false

/-- The activate handler as a trace: `caches.keys()` filtered to the stale
names, each deleted, and — after `Promise.all` of those settles —
`self.clients.claim()`. -/
def activateTrace (names : List String) (current : String) : List SWEvent :=
  (names.filter (fun k => k != current)).map SWEvent.deleteStore
    ++ [SWEvent.claimClients]

/-- Outcome of the fetch handler on one intercepted request: the response
delivered to the page (`none` when the event is not responded to), the
resulting CacheStorage, the warnings logged, and whether a promise
rejection escaped uncaught. -/
structure FetchResult where
  response : Option Response
  caches : Caches
  logs : List String
  unhandledRejection : Bool
deriving DecidableEq, Repr

/-- The fetch handler of the source, for one request.

* non-GET requests are not intercepted;
* `new URL(req.url)` throwing aborts the handler before `respondWith`;
* navigation requests (mode `navigate`, or accept header containing
  `text/html`) are network-first: on success the response is returned and
  a copy is put under `'/index.html'` (fire-and-forget: when that put
  fails nothing is caught or logged); on network failure the cached
  `'/index.html'` — possibly `none` — is returned;
* other GET requests are cache-first: a cache hit is returned as is; on a
  miss the network response is returned, and stored under the request URL
  only when its status is 200 and the request URL is same-origin (a
  failing put there is caught and logged); when the network also fails,
  an image request falls back to the cached fallback icon and any other
  request to a synthesized 503 response with `null` body. -/
def handleFetch (parseURL : String → Option URLParts) (selfOrigin cacheName : String)
    (net : Request → Option Response) (putFails : Bool)
    (cs : Caches) (req : Request) : FetchResult :=
  if req.method != "GET" then
    { response := none, caches := cs, logs := [], unhandledRejection := false }
  else
    match parseURL req.url with
    | none => { response := none, caches := cs, logs := [], unhandledRejection := false }
    | some reqUrl =>
      if isNavigationRequest req then
        match net req with
        | some networkResponse =>
          if putFails then
            { response := some networkResponse, caches := cs, logs := [],
              unhandledRejection := true }
          else
            { response := some networkResponse,
              caches := cachesPut cs cacheName rootDocKey networkResponse,
              logs := [], unhandledRejection := false }
        | none =>
          { response := cachesMatch cs rootDocKey, caches := cs, logs := [],
            unhandledRejection := false }
      else
        match cachesMatch cs req.url with
        | some cached =>
          { response := some cached, caches := cs, logs := [],
            unhandledRejection := false }
        | none =>
          match net req with
          | some networkResponse =>
            if networkResponse.status != 200 then
              { response := some networkResponse, caches := cs, logs := [],
                unhandledRejection := false }
            else if reqUrl.origin = selfOrigin then
              if putFails then
                { response := some networkResponse, caches := cs,
                  logs := ["SW: cache.put failed for " ++ req.url],
                  unhandledRejection := false }
              else
                { response := some networkResponse,
                  caches := cachesPut cs cacheName req.url networkResponse,
                  logs := [], unhandledRejection := false }
            else
              { response := some networkResponse, caches := cs, logs := [],
                unhandledRejection := false }
          | none =>
            if isImageRequest parseURL req then
              { response := cachesMatch cs fallbackIconKey, caches := cs,
                logs := [], unhandledRejection := false }
            else
              { response := some { status := 503,
                                   statusText := "Service Unavailable",
                                   body := none },
                caches := cs, logs := [], unhandledRejection := false }

theorem storeMatch_addEachStore (netA : String → Option Response)
    (assets : List String) (s : Store) (k : String) :
    storeMatch (addEachStore netA assets s) k =
      if k ∈ assets ∧ (fetchAsset netA k).isSome then fetchAsset netA k
      else storeMatch s k := by
  induction assets generalizing s with
  | nil => simp [addEachStore]
  | cons a rest ih =>
    cases hfa : fetchAsset netA a with
    | some r =>
      simp only [addEachStore, hfa, ih]
      by_cases hk : k = a
      · subst hk
        by_cases hr : k ∈ rest ∧ (fetchAsset netA k).isSome = true
        · simp [hr, hfa, List.mem_cons]
        · have hnr : k ∉ rest := fun hm => hr ⟨hm, by simp [hfa]⟩
          simp [hr, storeMatch_storePut, hfa, List.mem_cons]
      · by_cases hr : k ∈ rest ∧ (fetchAsset netA k).isSome = true
        · simp [hr, List.mem_cons, hr.1, hr.2]
        · simp [hr, storeMatch_storePut, hk, List.mem_cons]
    | none =>
      simp only [addEachStore, hfa, ih]
      by_cases hk : k = a
      · subst hk
        simp [hfa]
      · simp [List.mem_cons, hk]

theorem addAllFetch_batchPut (netA : String → Option Response)
    (assets : List String) (l : List (String × Response)) (s : Store)
    (h : addAllFetch netA assets = some l) :
    batchPut l s = addEachStore netA assets s := by
  induction assets generalizing l s with
  | nil =>
    simp [addAllFetch] at h
    subst h
    simp [batchPut, addEachStore]
  | cons a rest ih =>
    cases hfa : fetchAsset netA a with
    | some r =>
      simp only [addAllFetch, hfa] at h
      cases hrest : addAllFetch netA rest with
      | some l2 =>
        rw [hrest] at h
        simp at h
        subst h
        simp [batchPut, addEachStore, hfa, ih l2 (storePut s a r) hrest]
      | none => rw [hrest] at h; simp at h
    | none => simp [addAllFetch, hfa] at h

/-- In both the `addAll` branch and the fallback branch the resulting
store is the one obtained by adding each asset independently. -/
theorem installStore_fst (netA : String → Option Response)
    (assets : List String) (s : Store) :
    (installStore netA assets s).1 = addEachStore netA assets s := by
  unfold installStore
  cases hb : addAllStore netA assets s with
  | some st =>
    unfold addAllStore at hb
    cases hf : addAllFetch netA assets with
    | some l =>
      rw [hf] at hb
      simp at hb
      simp [← hb, addAllFetch_batchPut netA assets l s hf]
    | none => rw [hf] at hb; simp at hb
  | none => simp

theorem storeDelete_sublist (s : Store) (k : String) :
    List.Sublist (storeDelete s k) s := by
  induction s with
  | nil => simp [storeDelete]
  | cons e rest ih =>
    by_cases h : e.1 = k
    · simp only [storeDelete, if_pos h]
      exact ih.cons e
    · simp only [storeDelete, if_neg h]
      exact ih.cons₂ e

theorem not_mem_keys_storeDelete (s : Store) (k : String) :
    k ∉ (storeDelete s k).map Prod.fst := by
  induction s with
  | nil => simp [storeDelete]
  | cons e rest ih =>
    by_cases h : e.1 = k
    · simp [storeDelete, h, ih]
    · simp only [storeDelete, if_neg h, List.map_cons, List.mem_cons]
      exact fun hc => hc.elim (fun hh => h hh.symm) ih

theorem nodup_keys_storePut (s : Store) (k : String) (v : Response)
    (h : (s.map Prod.fst).Nodup) : ((storePut s k v).map Prod.fst).Nodup := by
  have h1 : ((storeDelete s k).map Prod.fst).Nodup :=
    h.sublist ((storeDelete_sublist s k).map Prod.fst)
  simp [storePut, List.nodup_append]
  exact ⟨h1, fun x hx =>
    not_mem_keys_storeDelete s k (List.mem_map_of_mem Prod.fst hx)⟩

theorem nodup_keys_addEachStore (netA : String → Option Response)
    (assets : List String) (s : Store)
    (h : (s.map Prod.fst).Nodup) :
    ((addEachStore netA assets s).map Prod.fst).Nodup := by
  induction assets generalizing s with
  | nil => exact h
  | cons a rest ih =>
    cases hfa : fetchAsset netA a with
    | some r =>
      simp only [addEachStore, hfa]
      exact ih _ (nodup_keys_storePut s a r h)
    | none =>
      simp only [addEachStore, hfa]
      exact ih _ h

theorem addAllFetch_eq_none (netA : String → Option Response)
    (assets : List String) (h : addAllOk netA assets = false) :
    addAllFetch netA assets = none := by
  induction assets with
  | nil => simp [addAllOk] at h
  | cons a rest ih =>
    cases hfa : fetchAsset netA a with
    | none => simp [addAllFetch, hfa]
    | some r =>
      have hrest : addAllOk netA rest = false := by
        simp [addAllOk, hfa] at h
        simpa [addAllOk] using h
      simp [addAllFetch, hfa, ih hrest]

theorem mem_addEachLogs (netA : String → Option Response)
    (assets : List String) (a : String)
    (ha : a ∈ assets) (hf : fetchAsset netA a = none) :
    ("SW: failed to cache " ++ a) ∈ addEachLogs netA assets := by
  induction assets with
  | nil => cases ha
  | cons b rest ih =>
    rcases List.mem_cons.mp ha with hb | hb
    · subst hb
      simp [addEachLogs, hf]
    · cases hfb : fetchAsset netA b <;> simp [addEachLogs, hfb, ih hb]

/-- Claim C6: when the bulk `cache.addAll` population fails, the install
phase falls back to fetching and storing each manifest entry
independently: starting from an empty store, every entry that fetches
successfully ends up stored with its fetched response, while an entry
whose fetch fails is absent from the store and a warning naming it is
logged — the failure of one entry never blocks the others. -/
theorem install_fallback_salvages (netA : String → Option Response)
    (assets : List String) (a : String)
    (hfail : addAllOk netA assets = false) (ha : a ∈ assets) :
    (∀ r, fetchAsset netA a = some r →
        storeMatch (installStore netA assets []).1 a = some r) ∧
    (fetchAsset netA a = none →
        storeMatch (installStore netA assets []).1 a = none ∧
        ("SW: failed to cache " ++ a) ∈ (installStore netA assets []).2) := by
  have hstore := installStore_fst netA assets ([] : Store)
  refine ⟨fun r hr => ?_, fun hr => ⟨?_, ?_⟩⟩
  · rw [hstore, storeMatch_addEachStore]
    simp [ha, hr]
  · rw [hstore, storeMatch_addEachStore]
    simp [hr, storeMatch]
  · have hA := addAllFetch_eq_none netA assets hfail
    unfold installStore addAllStore
    rw [hA]
    exact List.mem_cons.mpr (Or.inr (mem_addEachLogs netA assets a ha hr))

/-- Claim C9: running the install phase twice in sequence with the same
asset manifest and version leaves the named cache store with the same
contents (the same lookup answer on every key) as running it once, and
introduces no duplicated keys; the second run raises no error. -/
theorem install_idempotent (netA : String → Option Response)
    (assets : List String) (s : Store) (k : String) :
    (storeMatch (installStore netA assets (installStore netA assets s).1).1 k =
      storeMatch (installStore netA assets s).1 k) ∧
    ((s.map Prod.fst).Nodup →
      ((installStore netA assets (installStore netA assets s).1).1.map Prod.fst).Nodup) := by
  constructor
  · simp only [installStore_fst, storeMatch_addEachStore]
    by_cases h : k ∈ assets ∧ (fetchAsset netA k).isSome = true <;> simp [h]
  · intro hn
    simp only [installStore_fst]
    exact nodup_keys_addEachStore _ _ _ (nodup_keys_addEachStore _ _ _ hn)

/-- A same-origin 200 response used as a test fixture. -/
def okResponse : Response := { status := 200, statusText := "OK", body := some "body" }

/-- A test network on which exactly one manifest entry is missing. -/
def testNet : String → Option Response :=
  fun a => if a = "/missing.png" then none else some okResponse

/-- The manifest of the install fallback scenario in the specification. -/
def testAssets : List String := ["/", "/app.js", "/missing.png"]

/-- Witness for C6: on the spec scenario manifest, the fallback path
stores the two reachable entries and logs the missing one. -/
theorem install_fallback_salvages_witness :
    (storeMatch (installStore testNet testAssets []).1 "/app.js" = some okResponse) ∧
    (storeMatch (installStore testNet testAssets []).1 "/missing.png" = none ∧
      ("SW: failed to cache " ++ "/missing.png") ∈ (installStore testNet testAssets []).2) :=
  ⟨(install_fallback_salvages testNet testAssets "/app.js" (by decide)
      (by decide)).1 okResponse (by decide),
   (install_fallback_salvages testNet testAssets "/missing.png" (by decide)
      (by decide)).2 (by decide)⟩

/-- Witness for C9 at the scenario manifest and an empty starting store. -/
theorem install_idempotent_witness :
    (storeMatch (installStore testNet testAssets (installStore testNet testAssets []).1).1
        "/app.js" =
      storeMatch (installStore testNet testAssets []).1 "/app.js") ∧
    ((installStore testNet testAssets
        (installStore testNet testAssets []).1).1.map Prod.fst).Nodup :=
  ⟨(install_idempotent testNet testAssets [] "/app.js").1,
   (install_idempotent testNet testAssets [] "/app.js").2 (by simp)⟩

theorem filter_beq_of_nodup (l : List String) (a : String)
    (hnd : l.Nodup) (ha : a ∈ l) : l.filter (fun x => x == a) = [a] := by
  induction l with
  | nil => cases ha
  | cons b rest ih =>
    have hnd2 := List.nodup_cons.mp hnd
    by_cases hba : b = a
    · subst hba
      have hnr : ∀ x ∈ rest, ¬ (x == b) = true := by
        intro x hx hxb
        exact hnd2.1 ((eq_of_beq hxb) ▸ hx)
      have hempty : rest.filter (fun x => x == b) = [] :=
        List.filter_eq_nil_iff.mpr hnr
      simp [List.filter_cons, hempty]
    · have ha2 : a ∈ rest := by
        rcases List.mem_cons.mp ha with h1 | h1
        · exact absurd h1.symm hba
        · exact h1
      simp [List.filter_cons, hba, ih hnd2.2 ha2]

theorem keys_activateCaches (cs : Caches) (cur : String) :
    (activateCaches cs cur).map Prod.fst =
      (cs.map Prod.fst).filter (fun x => x == cur) := by
  induction cs with
  | nil => rfl
  | cons c rest ih =>
    simp only [activateCaches] at ih ⊢
    by_cases h : c.1 == cur <;> simp [List.filter_cons, h, ih]

theorem cacheNameFor_injective (v1 v2 : String)
    (h : cacheNameFor v1 = cacheNameFor v2) : v1 = v2 := by
  have h2 := congrArg String.data h
  rw [cacheNameFor, cacheNameFor, String.data_append, String.data_append] at h2
  exact String.ext (List.append_cancel_left h2)

/-- Claim C3 counterexample: when the only pre-existing store is
`phone-keypad-v1` and version `v2` activates, the activate phase leaves
no store at all — not exactly one — because it only deletes stores and
never creates the current one. -/
theorem activate_single_store_counterexample :
    "v1" ≠ "v2" ∧
    (activateCaches [("phone-keypad-v1", [])] (cacheNameFor "v2")).map Prod.fst = [] ∧
    ([] : List String) ≠ [cacheNameFor "v2"] := by decide

/-- Claim C3 (amended): if the current version's store is among the
pre-existing stores (as the install phase guarantees), then after the
activate phase exactly that store remains and every store of any other
version — in particular the previous version's — has been deleted. -/
theorem activate_evicts_stale (cs : Caches) (v1 v2 : String)
    (hnd : (cs.map Prod.fst).Nodup)
    (hmem : cacheNameFor v2 ∈ cs.map Prod.fst)
    (hne : v1 ≠ v2) :
    (activateCaches cs (cacheNameFor v2)).map Prod.fst = [cacheNameFor v2] ∧
    cacheNameFor v1 ∉ (activateCaches cs (cacheNameFor v2)).map Prod.fst := by
  have h1 : (activateCaches cs (cacheNameFor v2)).map Prod.fst = [cacheNameFor v2] := by
    rw [keys_activateCaches]
    exact filter_beq_of_nodup _ _ hnd hmem
  refine ⟨h1, ?_⟩
  rw [h1]
  simp only [List.mem_singleton]
  exact fun hh => hne (cacheNameFor_injective v1 v2 hh)

/-- Witness for C3 (amended): stores `app-v1` style scenario — both
`phone-keypad-v1` and `phone-keypad-v2` exist; activating `v2` keeps
exactly `phone-keypad-v2`. -/
theorem activate_evicts_stale_witness :
    (activateCaches [("phone-keypad-v1", []), ("phone-keypad-v2", [])]
        (cacheNameFor "v2")).map Prod.fst = [cacheNameFor "v2"] ∧
    cacheNameFor "v1" ∉
      (activateCaches [("phone-keypad-v1", []), ("phone-keypad-v2", [])]
        (cacheNameFor "v2")).map Prod.fst :=
  activate_evicts_stale [("phone-keypad-v1", []), ("phone-keypad-v2", [])]
    "v1" "v2" (by decide) (by decide) (by decide)

/-- Claim C8: in the activate phase, every deletion of a stale store
settles strictly before clients are claimed: in the activate trace any
deletion event occurs at a position strictly before any
claim-clients event. -/
theorem activate_deletes_before_claim (names : List String) (current : String)
    (i j : Nat)
    (hi : (activateTrace names current)[i]? = some SWEvent.claimClients)
    (hj : ∃ n, (activateTrace names current)[j]? = some (SWEvent.deleteStore n)) :
    j < i := by
  have htrace : activateTrace names current =
      (names.filter (fun k => k != current)).map SWEvent.deleteStore
        ++ [SWEvent.claimClients] := rfl
  set d := (names.filter (fun k => k != current)).map SWEvent.deleteStore with hd
  have hi2 : ¬ i < d.length := by
    intro hlt
    rw [htrace, List.getElem?_append, if_pos hlt] at hi
    rw [hd, List.getElem?_map] at hi
    cases hnm : (names.filter (fun k => k != current))[i]? with
    | none => rw [hnm] at hi; simp at hi
    | some nm => rw [hnm] at hi; simp at hi
  have hj2 : j < d.length := by
    by_contra hge
    obtain ⟨n, hjn⟩ := hj
    rw [htrace, List.getElem?_append, if_neg hge] at hjn
    cases hm : j - d.length with
    | zero => rw [hm] at hjn; simp at hjn
    | succ m => rw [hm] at hjn; simp at hjn
  exact Nat.lt_of_lt_of_le hj2 (Nat.le_of_not_lt hi2)

/-- Witness for C8 on the two-store scenario: the single deletion (at
index 0) precedes the claim (at index 1). -/
theorem activate_deletes_before_claim_witness :
    (activateTrace ["phone-keypad-v1", "phone-keypad-v2"] CACHE_NAME)[1]?
        = some SWEvent.claimClients ∧
    (activateTrace ["phone-keypad-v1", "phone-keypad-v2"] CACHE_NAME)[0]?
        = some (SWEvent.deleteStore "phone-keypad-v1") ∧
    (0 : Nat) < 1 :=
  ⟨by decide, by decide,
   activate_deletes_before_claim ["phone-keypad-v1", "phone-keypad-v2"] CACHE_NAME
     1 0 (by decide) ⟨"phone-keypad-v1", by decide⟩⟩

/-- The worker's own origin in the test fixtures. -/
def appOrigin : String := "https://app.example"

/-- A URL parser fixture for the handful of fixture URLs. -/
def testParse : String → Option URLParts :=
  fun u =>
    if u = "https://app.example/" then some ⟨"https://app.example", "/"⟩
    else if u = "https://app.example/style.css" then
      some ⟨"https://app.example", "/style.css"⟩
    else if u = "https://app.example/pic.png" then
      some ⟨"https://app.example", "/pic.png"⟩
    else none

/-- A navigation request fixture. -/
def navReq : Request :=
  { method := "GET", url := "https://app.example/", destination := "document",
    mode := "navigate", accept := some "text/html" }

/-- A stylesheet (generic asset) request fixture. -/
def cssReq : Request :=
  { method := "GET", url := "https://app.example/style.css",
    destination := "style", mode := "no-cors", accept := some "text/css" }

/-- An image request fixture. -/
def imgReq : Request :=
  { method := "GET", url := "https://app.example/pic.png",
    destination := "image", mode := "no-cors", accept := none }

/-- A GET request whose URL does not parse. -/
def badReq : Request :=
  { method := "GET", url := "not a url", destination := "",
    mode := "cors", accept := none }

/-- A network that always answers 200. -/
def netOk : Request → Option Response := fun _ => some okResponse

/-- A network that always fails. -/
def netFail : Request → Option Response := fun _ => none

/-- A network that always answers 404. -/
def net404 : Request → Option Response :=
  fun _ => some { status := 404, statusText := "Not Found", body := some "nope" }

/-- Claim C1: a GET request classified as a navigation is served
network-first: when the network succeeds, the live network response is
returned and a copy of it becomes the root-document entry of the current
named cache store; when the network fails, the cached root document
(searched across all stores) is returned, the request being left
unhandled when no such entry exists. -/
theorem navigation_network_first (parseURL : String → Option URLParts)
    (selfOrigin cacheName : String) (net : Request → Option Response)
    (cs : Caches) (req : Request) (u : URLParts)
    (hget : req.method = "GET") (hu : parseURL req.url = some u)
    (hnav : isNavigationRequest req = true) :
    (∀ r, net req = some r →
      (handleFetch parseURL selfOrigin cacheName net false cs req).response = some r ∧
      storeMatch
        (cachesGet (handleFetch parseURL selfOrigin cacheName net false cs req).caches
          cacheName) rootDocKey = some r) ∧
    (net req = none →
      (handleFetch parseURL selfOrigin cacheName net false cs req).response =
        cachesMatch cs rootDocKey ∧
      (handleFetch parseURL selfOrigin cacheName net false cs req).caches = cs) := by
  constructor
  · intro r hr
    simp only [handleFetch, hget, bne_self_eq_false, Bool.false_eq_true, if_false, hu,
      hnav, if_true, hr]
    simp [cachesPut, cachesGet_cachesSet_self, storeMatch_storePut]
  · intro hr
    simp only [handleFetch, hget, bne_self_eq_false, Bool.false_eq_true, if_false, hu,
      hnav, if_true, hr]
    simp

/-- Witness for C1: a navigation served from a 200 network answer updates
the root document; the same navigation with the network down falls back
to the (here absent) cached root document. -/
theorem navigation_network_first_witness :
    ((handleFetch testParse appOrigin CACHE_NAME netOk false [] navReq).response =
        some okResponse ∧
      storeMatch
        (cachesGet (handleFetch testParse appOrigin CACHE_NAME netOk false [] navReq).caches
          CACHE_NAME) rootDocKey = some okResponse) ∧
    ((handleFetch testParse appOrigin CACHE_NAME netFail false [] navReq).response =
        cachesMatch [] rootDocKey ∧
      (handleFetch testParse appOrigin CACHE_NAME netFail false [] navReq).caches = []) :=
  ⟨(navigation_network_first testParse appOrigin CACHE_NAME netOk [] navReq
      ⟨appOrigin, "/"⟩ rfl (by decide) (by decide)).1 okResponse rfl,
   (navigation_network_first testParse appOrigin CACHE_NAME netFail [] navReq
      ⟨appOrigin, "/"⟩ rfl (by decide) (by decide)).2 rfl⟩

/-- Claim C2 counterexample: a fetch-phase code path does persist a
non-200 response — the navigation branch stores a 404 network answer
under the root-document key of the named cache store. -/
theorem non200_persisted_counterexample :
    storeMatch
      (cachesGet (handleFetch testParse appOrigin CACHE_NAME net404 false [] navReq).caches
        CACHE_NAME) rootDocKey =
      some { status := 404, statusText := "Not Found", body := some "nope" } ∧
    (404 : Nat) ≠ 200 := by decide

/-- Claim C2 (amended): the 200/same-origin guard governs the
non-navigation (generic and image) path only: a handled GET request not
classified as a navigation either leaves the cache storage unchanged or
stores exactly the network response, which then has status 200 and whose
request URL is same-origin; the navigation branch instead refreshes the
root-document entry with whatever response the network returned. -/
theorem implicit_caching_guard (parseURL : String → Option URLParts)
    (selfOrigin cacheName : String) (net : Request → Option Response) (pf : Bool)
    (cs : Caches) (req : Request) (u : URLParts)
    (hget : req.method = "GET") (hu : parseURL req.url = some u)
    (hnav : isNavigationRequest req = false) :
    (handleFetch parseURL selfOrigin cacheName net pf cs req).caches = cs ∨
    (∃ r, net req = some r ∧ r.status = 200 ∧ u.origin = selfOrigin ∧
      (handleFetch parseURL selfOrigin cacheName net pf cs req).caches =
        cachesPut cs cacheName req.url r) := by
  simp only [handleFetch, hget, bne_self_eq_false, Bool.false_eq_true, if_false, hu, hnav]
  cases hc : cachesMatch cs req.url with
  | some cached => exact Or.inl rfl
  | none =>
    cases hn : net req with
    | none =>
      cases hi : isImageRequest parseURL req <;> simp [hi]
    | some r =>
      by_cases hs : r.status = 200
      · by_cases ho : u.origin = selfOrigin
        · cases pf with
          | true => simp [hs, ho]
          | false =>
            refine Or.inr ⟨r, rfl, hs, ho, ?_⟩
            simp [hs, ho]
        · simp [hs, ho]
      · have : (r.status != 200) = true := by
          simpa using hs
        simp [this]

/-- Witness for C2 (amended) on a same-origin stylesheet request. -/
theorem implicit_caching_guard_witness :
    (handleFetch testParse appOrigin CACHE_NAME netOk false [] cssReq).caches = [] ∨
    (∃ r, netOk cssReq = some r ∧ r.status = 200 ∧
      (URLParts.mk appOrigin "/style.css").origin = appOrigin ∧
      (handleFetch testParse appOrigin CACHE_NAME netOk false [] cssReq).caches =
        cachesPut [] CACHE_NAME cssReq.url r) :=
  implicit_caching_guard testParse appOrigin CACHE_NAME netOk false [] cssReq
    ⟨appOrigin, "/style.css"⟩ rfl (by decide) (by decide)

/-- Claim C4: a GET request classified as a generic asset (neither a
navigation nor an image), with no cache entry for it and the network
failing, is answered with the synthesized 503 Service Unavailable
response with a `null` body — never with the cached root document — and
the cache storage is left unchanged. -/
theorem generic_asset_503 (parseURL : String → Option URLParts)
    (selfOrigin cacheName : String) (net : Request → Option Response) (pf : Bool)
    (cs : Caches) (req : Request) (u : URLParts)
    (hget : req.method = "GET") (hu : parseURL req.url = some u)
    (hnav : isNavigationRequest req = false)
    (himg : isImageRequest parseURL req = false)
    (hmiss : cachesMatch cs req.url = none)
    (hnet : net req = none) :
    (handleFetch parseURL selfOrigin cacheName net pf cs req).response =
      some { status := 503, statusText := "Service Unavailable", body := none } ∧
    (handleFetch parseURL selfOrigin cacheName net pf cs req).caches = cs := by
  simp only [handleFetch, hget, bne_self_eq_false, Bool.false_eq_true, if_false, hu,
    hnav, hmiss, hnet, himg]
  simp

/-- Witness for C4: an offline stylesheet request with an empty cache
yields the 503 response. -/
theorem generic_asset_503_witness :
    (handleFetch testParse appOrigin CACHE_NAME netFail false [] cssReq).response =
      some { status := 503, statusText := "Service Unavailable", body := none } ∧
    (handleFetch testParse appOrigin CACHE_NAME netFail false [] cssReq).caches = [] :=
  generic_asset_503 testParse appOrigin CACHE_NAME netFail false [] cssReq
    ⟨appOrigin, "/style.css"⟩ rfl (by decide) (by decide) (by decide) rfl rfl

/-- Claim C5: a GET request classified as an image, with no cache entry
for it and the network failing, is answered with the cached fallback
icon entry — which is `none`, that is no response at all, when the icon
itself was never cached. -/
theorem image_fallback (parseURL : String → Option URLParts)
    (selfOrigin cacheName : String) (net : Request → Option Response) (pf : Bool)
    (cs : Caches) (req : Request) (u : URLParts)
    (hget : req.method = "GET") (hu : parseURL req.url = some u)
    (hnav : isNavigationRequest req = false)
    (himg : isImageRequest parseURL req = true)
    (hmiss : cachesMatch cs req.url = none)
    (hnet : net req = none) :
    (handleFetch parseURL selfOrigin cacheName net pf cs req).response =
      cachesMatch cs fallbackIconKey ∧
    (handleFetch parseURL selfOrigin cacheName net pf cs req).caches = cs := by
  simp only [handleFetch, hget, bne_self_eq_false, Bool.false_eq_true, if_false, hu,
    hnav, hmiss, hnet, himg]
  simp

/-- Witness for C5: an offline image request against a cache holding the
fallback icon is answered with that icon; against an empty cache it gets
no response. -/
theorem image_fallback_witness :
    ((handleFetch testParse appOrigin CACHE_NAME netFail false
        [(CACHE_NAME, [(fallbackIconKey, okResponse)])] imgReq).response =
      cachesMatch [(CACHE_NAME, [(fallbackIconKey, okResponse)])] fallbackIconKey) ∧
    ((handleFetch testParse appOrigin CACHE_NAME netFail false [] imgReq).response =
      cachesMatch [] fallbackIconKey) :=
  ⟨(image_fallback testParse appOrigin CACHE_NAME netFail false
      [(CACHE_NAME, [(fallbackIconKey, okResponse)])] imgReq
      ⟨appOrigin, "/pic.png"⟩ rfl (by decide) (by decide) (by decide) (by decide) rfl).1,
   (image_fallback testParse appOrigin CACHE_NAME netFail false [] imgReq
      ⟨appOrigin, "/pic.png"⟩ rfl (by decide) (by decide) (by decide) rfl rfl).1⟩

/-- Claim C7 counterexample: in the navigation branch a failing cache
write is neither caught nor logged — the rejection escapes unhandled —
although the live network response is still returned. -/
theorem navigation_put_failure_counterexample :
    (handleFetch testParse appOrigin CACHE_NAME netOk true [] navReq).response =
      some okResponse ∧
    (handleFetch testParse appOrigin CACHE_NAME netOk true [] navReq).logs = [] ∧
    (handleFetch testParse appOrigin CACHE_NAME netOk true [] navReq).unhandledRejection
      = true := by decide

/-- Claim C7 (amended): a cache-write failure never surfaces to the
caller and the live network response is still returned, on every path
that attempts a write; on the generic/image path the failure is caught
and logged, while on the navigation path it is neither caught nor
logged — it escapes as an unhandled promise rejection. -/
theorem cache_write_failure_policy (parseURL : String → Option URLParts)
    (selfOrigin cacheName : String) (net : Request → Option Response)
    (cs : Caches) (req : Request) (u : URLParts) (r : Response)
    (hget : req.method = "GET") (hu : parseURL req.url = some u)
    (hnet : net req = some r) :
    (isNavigationRequest req = true →
      (handleFetch parseURL selfOrigin cacheName net true cs req).response = some r ∧
      (handleFetch parseURL selfOrigin cacheName net true cs req).logs = [] ∧
      (handleFetch parseURL selfOrigin cacheName net true cs req).unhandledRejection
        = true ∧
      (handleFetch parseURL selfOrigin cacheName net true cs req).caches = cs) ∧
    (isNavigationRequest req = false → cachesMatch cs req.url = none →
      r.status = 200 → u.origin = selfOrigin →
      (handleFetch parseURL selfOrigin cacheName net true cs req).response = some r ∧
      (handleFetch parseURL selfOrigin cacheName net true cs req).logs =
        ["SW: cache.put failed for " ++ req.url] ∧
      (handleFetch parseURL selfOrigin cacheName net true cs req).unhandledRejection
        = false ∧
      (handleFetch parseURL selfOrigin cacheName net true cs req).caches = cs) := by
  constructor
  · intro hnav
    simp only [handleFetch, hget, bne_self_eq_false, Bool.false_eq_true, if_false, hu,
      hnav, hnet]
    simp
  · intro hnav hmiss hs ho
    simp only [handleFetch, hget, bne_self_eq_false, Bool.false_eq_true, if_false, hu,
      hnav, hmiss, hnet, hs, ho]
    simp

/-- Witness for C7 (amended): a navigation and a stylesheet request, each
with a failing cache write, both still deliver the live 200 response. -/
theorem cache_write_failure_policy_witness :
    ((handleFetch testParse appOrigin CACHE_NAME netOk true [] navReq).response =
        some okResponse ∧
      (handleFetch testParse appOrigin CACHE_NAME netOk true [] navReq).logs = [] ∧
      (handleFetch testParse appOrigin CACHE_NAME netOk true [] navReq).unhandledRejection
        = true ∧
      (handleFetch testParse appOrigin CACHE_NAME netOk true [] navReq).caches = []) ∧
    ((handleFetch testParse appOrigin CACHE_NAME netOk true [] cssReq).response =
        some okResponse ∧
      (handleFetch testParse appOrigin CACHE_NAME netOk true [] cssReq).logs =
        ["SW: cache.put failed for " ++ cssReq.url] ∧
      (handleFetch testParse appOrigin CACHE_NAME netOk true [] cssReq).unhandledRejection
        = false ∧
      (handleFetch testParse appOrigin CACHE_NAME netOk true [] cssReq).caches = []) :=
  ⟨(cache_write_failure_policy testParse appOrigin CACHE_NAME netOk [] navReq
      ⟨appOrigin, "/"⟩ okResponse rfl (by decide) rfl).1 (by decide),
   (cache_write_failure_policy testParse appOrigin CACHE_NAME netOk [] cssReq
      ⟨appOrigin, "/style.css"⟩ okResponse rfl (by decide) rfl).2 (by decide) rfl rfl rfl⟩

/-- Claim C10: the image classifier is total — it yields a boolean on
every request — and when the destination is not `image` and the URL does
not parse, the parse failure is caught and the classifier answers
`false` instead of propagating the exception. -/
theorem isImageRequest_total (parseURL : String → Option URLParts) (req : Request) :
    (isImageRequest parseURL req = true ∨ isImageRequest parseURL req = false) ∧
    (req.destination ≠ "image" → parseURL req.url = none →
      isImageRequest parseURL req = false) := by
  refine ⟨?_, fun hdest hurl => ?_⟩
  · cases h : isImageRequest parseURL req
    · exact Or.inr rfl
    · exact Or.inl rfl
  · simp [isImageRequest, hdest, hurl]

/-- Witness for C10 on a GET request whose URL does not parse. -/
theorem isImageRequest_total_witness :
    (isImageRequest testParse badReq = true ∨ isImageRequest testParse badReq = false) ∧
    isImageRequest testParse badReq = false :=
  ⟨(isImageRequest_total testParse badReq).1,
   (isImageRequest_total testParse badReq).2 (by decide) (by decide)⟩

end SW
